import Mathlib

/-!
Verification of the Pomoflare core: a shallow embedding of the countdown
clock hook (`useBackgroundTimer`), the web-worker timer, and the
orchestrating page logic (`Index.tsx`), with theorems checking the
specification's testable properties against the embedded code.

Conventions of the embedding:
- JS numbers used as non-negative integer counters become `Nat`; every
  decrement in the source is guarded by an `== 0` check, so `Nat`
  subtraction agrees with the source exactly.
- React state cells become record fields; a `setX` call becomes a
  functional update. Interval handles (`intervalRef.current`,
  `timerInterval`) become a Boolean "armed" flag: `clearInterval` and
  nulling the ref disarm, `setInterval` arms; a tick callback can only run
  while the flag is armed.
- Side effects aimed at external collaborators (console logging, wake
  lock, sounds, toasts, document title) are outside the core per the spec
  and are dropped; observable signals (`onComplete`, `onTick`,
  `showMcqReminder`) are kept as explicit result data.
-/

/-- Remaining time as held by the hook and the worker: `{minutes, seconds}`
(`TimerTime` in `useBackgroundTimer`). -/
structure TimerTime where
  minutes : Nat
  seconds : Nat
deriving Repr, DecidableEq

/-- Total remaining seconds, the measure the countdown decreases. -/
def TimerTime.total (t : TimerTime) : Nat :=
  t.minutes * 60 + t.seconds

/-- State owned by the `useBackgroundTimer` hook: the `time` state cell,
the `isActive` state cell, and whether `intervalRef.current` holds a live
interval. -/
structure ClockState where
  time : TimerTime
  isActive : Bool
  intervalArmed : Bool
deriving Repr, DecidableEq

/-- Initial hook state: `useState({minutes: 25, seconds: 0})`,
`useState(false)`, `useRef(null)`. -/
def clockInit : ClockState :=
  { time := ⟨25, 0⟩, isActive := false, intervalArmed := false }

/-- Result of one invocation of the hook's `tick` callback: the new state,
whether `onComplete` was invoked, and the argument of `onTick` when it was
invoked. -/
structure TickResult where
  state : ClockState
  completed : Bool
  ticked : Option TimerTime
deriving Repr, DecidableEq

/-- The hook's `tick` callback (useBackgroundTimer). If `seconds == 0` and
`minutes == 0` it deactivates, clears the interval and calls `onComplete`,
returning the time unchanged; if only `seconds == 0` it borrows a minute
and sets seconds to 59; otherwise it decrements seconds. In the two
decrement cases `onTick` fires with the new time. -/
def tick (s : ClockState) : TickResult :=
  if s.time.seconds = 0 then
    if s.time.minutes = 0 then
      { state := { s with isActive := false, intervalArmed := false },
        completed := true, ticked := none }
    else
      let newTime : TimerTime := ⟨s.time.minutes - 1, 59⟩
      { state := { s with time := newTime }, completed := false, ticked := some newTime }
  else
    let newTime : TimerTime := ⟨s.time.minutes, s.time.seconds - 1⟩
    { state := { s with time := newTime }, completed := false, ticked := some newTime }

/-- One cadence slot: the interval callback runs `tick` only while the
interval is armed (after `clearInterval` no further callback fires). -/
def cadenceStep (s : ClockState) : TickResult :=
  if s.intervalArmed then tick s
  else { state := s, completed := false, ticked := none }

/-- Run `n` cadence slots, counting how many times `onComplete` fired. -/
def runTicks (s : ClockState) : Nat → ClockState × Nat
  | 0 => (s, 0)
  | n + 1 =>
    let r := cadenceStep s
    let rest := runTicks r.state n
    (rest.1, (if r.completed then 1 else 0) + rest.2)

/-- The hook's `startTimer`: sets `time` to the given initial time, sets
`isActive` to true, clears any previous interval and starts a fresh
one-second interval (wake-lock acquisition is an external side effect). -/
def startTimer (initialTime : TimerTime) (_s : ClockState) : ClockState :=
  { time := initialTime, isActive := true, intervalArmed := true }

/-- The hook's `pauseTimer`: sets `isActive` to false and clears the
interval; `time` is untouched. -/
def pauseTimer (s : ClockState) : ClockState :=
  { s with isActive := false, intervalArmed := false }

/-- The hook's `resetTimer`: sets `time` to the given new time, sets
`isActive` to false and clears the interval. -/
def resetTimer (newTime : TimerTime) (s : ClockState) : ClockState :=
  { s with time := newTime, isActive := false, intervalArmed := false }

/-- The hook's `handleVisibilityChange` listener: both branches only log
to the console; no state is read back or written. -/
def handleVisibilityChange (_hidden : Bool) (s : ClockState) : ClockState :=
  s

section ClockLemmas

/-- A non-terminal tick decrements the total by one and changes nothing
else observable: no completion, activity and arming preserved. -/
lemma tick_nonterminal (s : ClockState) (h : 0 < s.time.total) :
    (tick s).state.time.total = s.time.total - 1 ∧
    (tick s).completed = false ∧
    (tick s).state.isActive = s.isActive ∧
    (tick s).state.intervalArmed = s.intervalArmed := by
  unfold tick
  rcases s with ⟨⟨m, sec⟩, act, arm⟩
  simp only [TimerTime.total] at h ⊢
  by_cases hs : sec = 0
  · subst hs
    have hm : m ≠ 0 := by
      intro hm; subst hm; simp at h
    simp [hm, TimerTime.total]
    omega
  · simp [hs, TimerTime.total]
    omega

/-- Running `k ≤ total` cadence slots on an armed clock with positive
remaining total yields no completions and a total reduced by exactly `k`,
with activity and arming preserved. -/
lemma runTicks_countdown (k : Nat) :
    ∀ s : ClockState, s.intervalArmed = true → k ≤ s.time.total →
    (runTicks s k).1.time.total = s.time.total - k ∧
    (runTicks s k).2 = 0 ∧
    (runTicks s k).1.isActive = s.isActive ∧
    (runTicks s k).1.intervalArmed = true := by
  induction k with
  | zero => intro s harm _; simp [runTicks, harm]
  | succ n ih =>
    intro s harm hk
    have hpos : 0 < s.time.total := by omega
    have ht := tick_nonterminal s hpos
    have hstep : cadenceStep s = tick s := by simp [cadenceStep, harm]
    have harm' : (tick s).state.intervalArmed = true := by rw [ht.2.2.2]; exact harm
    have hk' : n ≤ (tick s).state.time.total := by rw [ht.1]; omega
    have ihres := ih (tick s).state harm' hk'
    simp only [runTicks, hstep, ht.2.1]
    refine ⟨?_, ?_, ?_, ?_⟩
    · rw [ihres.1, ht.1]; omega
    · simp [ihres.2.1]
    · rw [ihres.2.2.1, ht.2.2.1]
    · exact ihres.2.2.2

/-- Once the interval is disarmed, further cadence slots change nothing
and fire nothing. -/
lemma runTicks_disarmed (n : Nat) (s : ClockState) (h : s.intervalArmed = false) :
    runTicks s n = (s, 0) := by
  induction n with
  | zero => simp [runTicks]
  | succ m ih =>
    have hstep : cadenceStep s = { state := s, completed := false, ticked := none } := by
      simp [cadenceStep, h]
    simp [runTicks, hstep, ih]

/-- Running `a + b` cadence slots is running `a`, then `b` from the
reached state, with completion counts adding. -/
lemma runTicks_append : ∀ (a : Nat) (s : ClockState) (b : Nat),
    runTicks s (a + b) =
      ((runTicks (runTicks s a).1 b).1,
       (runTicks s a).2 + (runTicks (runTicks s a).1 b).2) := by
  intro a
  induction a with
  | zero => intro s b; simp [runTicks]
  | succ p ih =>
    intro s b
    have h1 : p + 1 + b = (p + b) + 1 := by omega
    rw [h1]
    simp only [runTicks]
    rw [ih]
    simp [Nat.add_assoc]

end ClockLemmas

/-- A valid timer duration per the spec data model: seconds normalized
below 60 and not both components zero. -/
def TimerTime.valid (t : TimerTime) : Prop :=
  t.seconds ≤ 59 ∧ 0 < t.total

instance (t : TimerTime) : Decidable t.valid := by
  unfold TimerTime.valid; infer_instance

/-- C1 counterexample: start the clock at 0:01 (a valid duration with
total 1) and run exactly `total = 1` cadence slots: the remaining time is
0:00 but zero completion signals have fired, contradicting the claim that
exactly one fires within the first `total` ticks. -/
theorem c1_counterexample :
    (⟨0, 1⟩ : TimerTime).valid ∧
    (runTicks (startTimer ⟨0, 1⟩ clockInit) (TimerTime.total ⟨0, 1⟩)).1.time = ⟨0, 0⟩ ∧
    (runTicks (startTimer ⟨0, 1⟩ clockInit) (TimerTime.total ⟨0, 1⟩)).2 ≠ 1 := by
  decide

/-- C1 (amended): for every valid duration D with total T = minutes*60 +
seconds, starting the clock at D and running n cadence slots gives: no
completion and remaining total T − n for every n ≤ T (in particular
remaining 0:00 and zero completions at exactly n = T), and for every
n ≥ T + 1 exactly one completion with remaining 0:00 — the completion
signal fires on tick T + 1, exactly once, and never earlier. -/
theorem clock_completion_after_total_plus_one (t : TimerTime) (h : t.valid) :
    (∀ k ≤ t.total, (runTicks (startTimer t clockInit) k).2 = 0 ∧
      (runTicks (startTimer t clockInit) k).1.time.total = t.total - k) ∧
    (∀ n, t.total + 1 ≤ n → (runTicks (startTimer t clockInit) n).2 = 1 ∧
      (runTicks (startTimer t clockInit) n).1.time = ⟨0, 0⟩) := by
  obtain ⟨hsec, hpos⟩ := h
  have hstart : (startTimer t clockInit).time = t ∧
      (startTimer t clockInit).intervalArmed = true := by
    constructor <;> rfl
  constructor
  · intro k hk
    have := runTicks_countdown k (startTimer t clockInit) hstart.2 (by rw [hstart.1]; exact hk)
    rw [hstart.1] at this
    exact ⟨this.2.1, this.1⟩
  · intro n hn
    -- split the run: T countdown slots, then one terminal slot, then the rest
    obtain ⟨m, hm⟩ : ∃ m, n = t.total + (1 + m) := ⟨n - (t.total + 1), by omega⟩
    subst hm
    -- after T slots: time total 0, armed, 0 completions
    have hT := runTicks_countdown t.total (startTimer t clockInit) hstart.2
      (by rw [hstart.1])
    set sT := (runTicks (startTimer t clockInit) t.total).1 with hsT
    have hTtime : sT.time = ⟨0, 0⟩ := by
      have h0 : sT.time.total = 0 := by
        rw [hT.1, hstart.1]; omega
      rcases htt : sT.time with ⟨mm, ss⟩
      rw [htt] at h0
      simp [TimerTime.total] at h0
      simp [h0.1, h0.2]
    -- the terminal slot completes and disarms
    have hterm : cadenceStep sT = tick sT := by simp [cadenceStep, hT.2.2.2]
    have htick : tick sT =
        { state := { sT with isActive := false, intervalArmed := false },
          completed := true, ticked := none } := by
      unfold tick
      rw [hTtime]
      simp
    have htail : runTicks sT (1 + m) =
        ({ sT with isActive := false, intervalArmed := false }, 1) := by
      rw [Nat.add_comm 1 m]
      simp only [runTicks, hterm, htick]
      rw [runTicks_disarmed m ({ sT with isActive := false, intervalArmed := false }) rfl]
      simp
    rw [runTicks_append t.total (startTimer t clockInit) (1 + m)]
    rw [← hsT, htail, hT.2.1]
    exact ⟨rfl, hTtime⟩

/-- Witness for the amended C1 theorem at the concrete duration 0:02. -/
theorem clock_completion_witness :
    (⟨0, 2⟩ : TimerTime).valid ∧
    ((runTicks (startTimer ⟨0, 2⟩ clockInit) 2).2 = 0 ∧
      (runTicks (startTimer ⟨0, 2⟩ clockInit) 2).1.time.total = TimerTime.total ⟨0, 2⟩ - 2) ∧
    ((runTicks (startTimer ⟨0, 2⟩ clockInit) 3).2 = 1 ∧
      (runTicks (startTimer ⟨0, 2⟩ clockInit) 3).1.time = ⟨0, 0⟩) := by
  refine ⟨by decide, ?_, ?_⟩
  · exact (clock_completion_after_total_plus_one ⟨0, 2⟩ (by decide)).1 2 (by decide)
  · exact (clock_completion_after_total_plus_one ⟨0, 2⟩ (by decide)).2 3 (by decide)

/-- The three phases of `timerState.phase` in Index.tsx. -/
inductive Phase where
  | focus
  | shortBreak
  | longBreak
deriving Repr, DecidableEq

/-- The `PomodoroSettings` record of Index.tsx (all values in minutes
except the interval, which counts sessions). -/
structure PomodoroSettings where
  focusTime : Nat
  shortBreak : Nat
  longBreak : Nat
  longBreakInterval : Nat
deriving Repr, DecidableEq

/-- The built-in `focus` preset: `{focusTime: 25, shortBreak: 5, longBreak: 15,
longBreakInterval: 4}`. -/
def presetFocus : PomodoroSettings :=
  { focusTime := 25, shortBreak := 5, longBreak := 15, longBreakInterval := 4 }

/-- The `TimerState` record of Index.tsx. -/
structure TimerState where
  phase : Phase
  sessionCount : Nat
deriving Repr, DecidableEq

/-- The `Statistics` record of Index.tsx. -/
structure Statistics where
  totalFocusTime : Nat
  totalBreakTime : Nat
  completedSessions : Nat
  mcqReminders : Nat
  todayDate : String
deriving Repr, DecidableEq

/-- Zeroed statistics stamped with the given day, as built by the
`useState` initializer fallback and by `resetStatistics`. -/
def zeroStats (today : String) : Statistics :=
  { totalFocusTime := 0, totalBreakTime := 0, completedSessions := 0,
    mcqReminders := 0, todayDate := today }

/-- Result of `handleTimerComplete`: the updated timer state and
statistics, plus the duration the delayed `setTimeout` will auto-start the
clock with (`none` when no auto-start is scheduled). Sounds and toasts go
to external collaborators. -/
structure CompleteResult where
  timerState : TimerState
  statistics : Statistics
  autoStart : Option TimerTime
deriving Repr, DecidableEq

/-- The `handleTimerComplete` callback of Index.tsx. On a focus
completion it advances `sessionCount`, picks long vs short break by
`newSessionCount % longBreakInterval === 0`, credits focus statistics and
schedules an auto-start of the break; on a break completion it returns to
focus, credits the completed break's configured minutes and schedules no
auto-start. -/
def handleTimerComplete (st : TimerState) (settings : PomodoroSettings)
    (stats : Statistics) : CompleteResult :=
  if st.phase = Phase.focus then
    let newSessionCount := st.sessionCount + 1
    let isLongBreak := newSessionCount % settings.longBreakInterval = 0
    let nextPhase := if isLongBreak then Phase.longBreak else Phase.shortBreak
    let nextDuration := if isLongBreak then settings.longBreak else settings.shortBreak
    { timerState := { phase := nextPhase, sessionCount := newSessionCount },
      statistics := { stats with
        totalFocusTime := stats.totalFocusTime + settings.focusTime,
        completedSessions := stats.completedSessions + 1 },
      autoStart := some ⟨nextDuration, 0⟩ }
  else
    let breakTime := if st.phase = Phase.longBreak then settings.longBreak
      else settings.shortBreak
    { timerState := { st with phase := Phase.focus },
      statistics := { stats with totalBreakTime := stats.totalBreakTime + breakTime },
      autoStart := none }

/-- The `showMcqReminder` callback of Index.tsx: increments the
`mcqReminders` statistic (sound and toast are external). -/
def showMcqReminder (stats : Statistics) : Statistics :=
  { stats with mcqReminders := stats.mcqReminders + 1 }

/-- Joint state of the Index page that the button handlers touch: the
clock hook's state plus the `timerState`, `settings` and `statistics`
state cells. -/
structure AppState where
  clock : ClockState
  timerState : TimerState
  settings : PomodoroSettings
  statistics : Statistics
deriving Repr, DecidableEq

/-- The `handleStartTimer` handler of Index.tsx: computes `initialTime`
from the current phase's configured minutes (always with zero seconds) and
calls the hook's `startTimer` with it. -/
def handleStartTimer (a : AppState) : AppState :=
  let initialTime : TimerTime :=
    if a.timerState.phase = Phase.focus then ⟨a.settings.focusTime, 0⟩
    else if a.timerState.phase = Phase.shortBreak then ⟨a.settings.shortBreak, 0⟩
    else ⟨a.settings.longBreak, 0⟩
  { a with clock := startTimer initialTime a.clock }

/-- The `handlePauseTimer` handler of Index.tsx: calls the hook's
`pauseTimer`. -/
def handlePauseTimer (a : AppState) : AppState :=
  { a with clock := pauseTimer a.clock }

/-- The `handleResetTimer` handler of Index.tsx: resets the clock to the
configured focus duration and forces `{phase: focus, sessionCount: 0}`;
statistics are not touched. -/
def handleResetTimer (a : AppState) : AppState :=
  { a with clock := resetTimer ⟨a.settings.focusTime, 0⟩ a.clock,
           timerState := { phase := Phase.focus, sessionCount := 0 } }

/-- App state used in the pause/resume scenario: custom settings with a
one-minute focus duration, phase focus, idle clock. -/
def c2PauseScenario : AppState :=
  { clock := clockInit,
    timerState := { phase := Phase.focus, sessionCount := 0 },
    settings := { focusTime := 1, shortBreak := 5, longBreak := 15, longBreakInterval := 4 },
    statistics := zeroStats "d" }

/-- C2 failing run: start a 1-minute focus session, tick 10 times down to
0:50, pause (remaining stays 0:50), press the start control again, tick
once. The code restarts at the full configured duration 1:00 and shows
0:59 — not 0:49 as the claim requires, because `handleStartTimer` rebuilds
`initialTime` from the settings and ignores the retained remaining time. -/
theorem resume_restarts_at_full_duration :
    ((runTicks (handleStartTimer c2PauseScenario).clock 10).1.time = ⟨0, 50⟩) ∧
    ((handlePauseTimer { c2PauseScenario with
        clock := (runTicks (handleStartTimer c2PauseScenario).clock 10).1 }).clock.time
      = ⟨0, 50⟩) ∧
    ((runTicks (handleStartTimer (handlePauseTimer { c2PauseScenario with
        clock := (runTicks (handleStartTimer c2PauseScenario).clock 10).1 })).clock 1).1.time
      = ⟨0, 59⟩) ∧
    ((⟨0, 59⟩ : TimerTime) ≠ ⟨0, 49⟩) := by
  decide

/-- C3: a focus completion advances `sessionCount` by one and chooses
LongBreak exactly when the new count is a multiple of `longBreakInterval`,
ShortBreak otherwise; with the `focus` preset (interval 4) four
consecutive focus completions go ShortBreak, ShortBreak, ShortBreak,
LongBreak, ending with `sessionCount = 4`. -/
theorem focus_completion_transition (st : TimerState) (settings : PomodoroSettings)
    (stats : Statistics) (hf : st.phase = Phase.focus)
    (hpos : 0 < settings.longBreakInterval) :
    ((handleTimerComplete st settings stats).timerState.sessionCount = st.sessionCount + 1) ∧
    ((handleTimerComplete st settings stats).timerState.phase = Phase.longBreak ↔
      (st.sessionCount + 1) % settings.longBreakInterval = 0) ∧
    ((handleTimerComplete st settings stats).timerState.phase = Phase.shortBreak ↔
      (st.sessionCount + 1) % settings.longBreakInterval ≠ 0) ∧
    ((handleTimerComplete ⟨Phase.focus, 0⟩ presetFocus stats).timerState
      = ⟨Phase.shortBreak, 1⟩) ∧
    ((handleTimerComplete ⟨Phase.focus, 1⟩ presetFocus stats).timerState
      = ⟨Phase.shortBreak, 2⟩) ∧
    ((handleTimerComplete ⟨Phase.focus, 2⟩ presetFocus stats).timerState
      = ⟨Phase.shortBreak, 3⟩) ∧
    ((handleTimerComplete ⟨Phase.focus, 3⟩ presetFocus stats).timerState
      = ⟨Phase.longBreak, 4⟩) := by
  refine ⟨?_, ?_, ?_, ?_, ?_, ?_, ?_⟩ <;>
    simp [handleTimerComplete, hf, presetFocus] <;>
    by_cases hmod : (st.sessionCount + 1) % settings.longBreakInterval = 0 <;>
    simp [hmod]

/-- Witness for the C3 theorem at a concrete focus state with the focus
preset. -/
theorem focus_completion_transition_witness :
    ((⟨Phase.focus, 2⟩ : TimerState).phase = Phase.focus ∧ 0 < presetFocus.longBreakInterval) ∧
    (handleTimerComplete ⟨Phase.focus, 2⟩ presetFocus (zeroStats "d")).timerState.sessionCount
      = 2 + 1 := by
  refine ⟨⟨rfl, by decide⟩, ?_⟩
  exact (focus_completion_transition ⟨Phase.focus, 2⟩ presetFocus (zeroStats "d")
    rfl (by decide)).1

/-- C4: a break completion returns the phase to focus, leaves
`sessionCount` unchanged, adds the completed break's configured minutes to
`totalBreakTime`, and schedules no auto-start of the clock. -/
theorem break_completion_returns_to_focus (st : TimerState) (settings : PomodoroSettings)
    (stats : Statistics) (hb : st.phase ≠ Phase.focus) :
    ((handleTimerComplete st settings stats).timerState.phase = Phase.focus) ∧
    ((handleTimerComplete st settings stats).timerState.sessionCount = st.sessionCount) ∧
    ((handleTimerComplete st settings stats).statistics.totalBreakTime
      = stats.totalBreakTime +
        (if st.phase = Phase.longBreak then settings.longBreak else settings.shortBreak)) ∧
    ((handleTimerComplete st settings stats).autoStart = none) := by
  simp [handleTimerComplete, hb]

/-- Witness for the C4 theorem at a concrete long-break completion. -/
theorem break_completion_witness :
    ((⟨Phase.longBreak, 3⟩ : TimerState).phase ≠ Phase.focus) ∧
    (handleTimerComplete ⟨Phase.longBreak, 3⟩ presetFocus (zeroStats "d")).autoStart
      = none := by
  refine ⟨by decide, ?_⟩
  exact (break_completion_returns_to_focus ⟨Phase.longBreak, 3⟩ presetFocus
    (zeroStats "d") (by decide)).2.2.2

/-- C5: with `focusTime = 25`, one focus completion adds exactly 25 to
`totalFocusTime` and exactly 1 to `completedSessions`; a break completion
leaves both fields unchanged, and a reminder firing leaves both fields
unchanged as well. -/
theorem focus_completion_statistics (st st2 : TimerState) (settings : PomodoroSettings)
    (stats : Statistics) (hf : st.phase = Phase.focus) (h25 : settings.focusTime = 25)
    (hb : st2.phase ≠ Phase.focus) :
    ((handleTimerComplete st settings stats).statistics.totalFocusTime
      = stats.totalFocusTime + 25) ∧
    ((handleTimerComplete st settings stats).statistics.completedSessions
      = stats.completedSessions + 1) ∧
    ((handleTimerComplete st2 settings stats).statistics.totalFocusTime
      = stats.totalFocusTime) ∧
    ((handleTimerComplete st2 settings stats).statistics.completedSessions
      = stats.completedSessions) ∧
    ((showMcqReminder stats).totalFocusTime = stats.totalFocusTime) ∧
    ((showMcqReminder stats).completedSessions = stats.completedSessions) := by
  refine ⟨?_, ?_, ?_, ?_, rfl, rfl⟩ <;> simp [handleTimerComplete, showMcqReminder, hf, h25, hb]

/-- Witness for the C5 theorem with the focus preset at concrete states. -/
theorem focus_completion_statistics_witness :
    ((⟨Phase.focus, 0⟩ : TimerState).phase = Phase.focus ∧ presetFocus.focusTime = 25 ∧
      (⟨Phase.shortBreak, 1⟩ : TimerState).phase ≠ Phase.focus) ∧
    (handleTimerComplete ⟨Phase.focus, 0⟩ presetFocus (zeroStats "d")).statistics.totalFocusTime
      = (zeroStats "d").totalFocusTime + 25 := by
  refine ⟨⟨rfl, rfl, by decide⟩, ?_⟩
  exact (focus_completion_statistics ⟨Phase.focus, 0⟩ ⟨Phase.shortBreak, 1⟩ presetFocus
    (zeroStats "d") rfl rfl (by decide)).1

/-- Content found in durable storage under the statistics key, as seen by
`JSON.parse` inside the `statistics` useState initializer: either a string
that is not valid JSON (on which `JSON.parse` throws), or a parsed record.
A parseable value whose shape is not a statistics record behaves like a
parsed record whose `todayDate` differs from today. -/
inductive StoredStats where
  | malformed
  | parsed (s : Statistics)
deriving Repr, DecidableEq

/-- The `statistics` useState initializer of Index.tsx: reads the stored
record (`none` models an absent key), parses it — the unguarded
`JSON.parse` call throws on malformed input, modelled as `Except.error` —
and keeps the parsed record exactly when its `todayDate` equals today,
otherwise falling back to zeroed statistics stamped with today. -/
def loadStatistics (today : String) : Option StoredStats → Except Unit Statistics
  | none => .ok (zeroStats today)
  | some .malformed => .error ()
  | some (.parsed p) => if p.todayDate = today then .ok p else .ok (zeroStats today)

/-- C6 counterexample: with a malformed stored record the initializer does
not return zeroed statistics — it throws (the `JSON.parse` exception
propagates), so loading is not failure-free. -/
theorem load_statistics_malformed_throws :
    loadStatistics "Sun Oct 11 2026" (some StoredStats.malformed) = Except.error () ∧
    loadStatistics "Sun Oct 11 2026" (some StoredStats.malformed) ≠
      Except.ok (zeroStats "Sun Oct 11 2026") := by
  refine ⟨rfl, ?_⟩
  intro h
  exact Except.noConfusion h

/-- C6 (amended): a missing record loads as zeroed statistics with
today's key; a well-formed record loads as-is when its `todayDate` is
today and as zeroed statistics with today's key otherwise; a malformed
record, however, makes the load fail with the parse error instead of
reinitializing. -/
theorem load_statistics_behaviour (today : String) (p : Statistics) :
    loadStatistics today none = Except.ok (zeroStats today) ∧
    loadStatistics today (some (StoredStats.parsed p)) =
      Except.ok (if p.todayDate = today then p else zeroStats today) ∧
    loadStatistics today (some StoredStats.malformed) = Except.error () := by
  refine ⟨rfl, ?_, rfl⟩
  by_cases h : p.todayDate = today <;> simp [loadStatistics, h]

/-- The body of the MCQ interval callback of Index.tsx, iterated `n`
times from countdown `c`: on each one-second tick, if the countdown is at
most 1 it calls `showMcqReminder` and rearms to `mcqInterval`, else it
decrements by one. -/
def runMcqStats (mcqInterval : Nat) : Nat → Nat → Statistics → Nat × Statistics
  | 0, c, stats => (c, stats)
  | n + 1, c, stats =>
    if c ≤ 1 then runMcqStats mcqInterval n mcqInterval (showMcqReminder stats)
    else runMcqStats mcqInterval n (c - 1) stats

/-- The MCQ interval useEffect of Index.tsx: when `mcqMode && isActive &&
timerState.phase === 'focus'` holds, it arms the countdown at
`mcqInterval` and the interval callback then runs once per second; when
the condition is false it clears the interval (so the callback never
runs) and resets the countdown to 0. The result is the countdown value
and the statistics after `n` seconds. -/
def runMcqGuarded (mcqMode isActive : Bool) (phase : Phase) (mcqInterval : Nat)
    (n : Nat) (stats : Statistics) : Nat × Statistics :=
  if mcqMode && isActive && decide (phase = Phase.focus) then
    runMcqStats mcqInterval n mcqInterval stats
  else (0, stats)

/-- Closed form of the iterated MCQ callback: from a countdown `c` with
`1 ≤ c ≤ I`, after `n` ticks the countdown is `I - ((n + (I - c)) % I)`
and `mcqReminders` has grown by `(n + (I - c)) / I`, no other field
changing. -/
lemma runMcqStats_closed (I : Nat) (hI : 1 ≤ I) :
    ∀ (n c : Nat) (stats : Statistics), 1 ≤ c → c ≤ I →
    (runMcqStats I n c stats).1 = I - ((n + (I - c)) % I) ∧
    (runMcqStats I n c stats).2 =
      { stats with mcqReminders := stats.mcqReminders + (n + (I - c)) / I } := by
  intro n
  induction n with
  | zero =>
    intro c stats hc1 hcI
    have hlt : I - c < I := by omega
    have hmod : (I - c) % I = I - c := Nat.mod_eq_of_lt hlt
    have hdiv : (I - c) / I = 0 := Nat.div_eq_of_lt hlt
    simp only [runMcqStats, Nat.zero_add, hmod, hdiv]
    constructor
    · omega
    · simp
  | succ m ih =>
    intro c stats hc1 hcI
    by_cases hfire : c ≤ 1
    · have hc : c = 1 := by omega
      subst hc
      have harg : m + 1 + (I - 1) = m + I := by omega
      have hres := ih I (showMcqReminder stats) hI (le_refl I)
      simp only [runMcqStats, if_pos (le_refl 1)]
      rw [hres.1, hres.2]
      constructor
      · rw [harg, Nat.add_mod_right]
        simp
      · simp only [showMcqReminder]
        rw [harg, Nat.add_div_right _ (by omega : 0 < I)]
        simp [Nat.sub_self]
        omega
    · have harg : m + 1 + (I - c) = m + (I - (c - 1)) := by omega
      have hres := ih (c - 1) stats (by omega) (by omega)
      simp only [runMcqStats, if_neg hfire]
      rw [hres.1, hres.2, harg]
      exact ⟨rfl, rfl⟩

/-- C7: with `mcqInterval = 300`, while the feature is enabled, the clock
is active and the phase is focus, `n` scheduler ticks fire exactly
`n / 300` reminders (each adding 1 to `mcqReminders`) and leave the
countdown rearmed at `300 - n % 300`; with a break phase, or with the
feature disabled, the countdown is 0 and the statistics are untouched for
every tick count. -/
theorem mcq_scheduler (n : Nat) (stats : Statistics) (mode active : Bool) (ph : Phase) :
    ((runMcqGuarded true true Phase.focus 300 n stats).2.mcqReminders
      = stats.mcqReminders + n / 300) ∧
    ((runMcqGuarded true true Phase.focus 300 n stats).1 = 300 - n % 300) ∧
    (runMcqGuarded mode active Phase.shortBreak 300 n stats = (0, stats)) ∧
    (runMcqGuarded mode active Phase.longBreak 300 n stats = (0, stats)) ∧
    (runMcqGuarded false active ph 300 n stats = (0, stats)) := by
  have hres := runMcqStats_closed 300 (by omega) n 300 stats (by omega) (le_refl 300)
  refine ⟨?_, ?_, ?_, ?_, ?_⟩
  · have harmed : runMcqGuarded true true Phase.focus 300 n stats
        = runMcqStats 300 n 300 stats := by
      simp [runMcqGuarded]
    rw [harmed, hres.2]
    simp
  · have harmed : runMcqGuarded true true Phase.focus 300 n stats
        = runMcqStats 300 n 300 stats := by
      simp [runMcqGuarded]
    rw [harmed, hres.1]
    simp
  · simp [runMcqGuarded]
  · simp [runMcqGuarded]
  · simp [runMcqGuarded]

/-- C8: a manual reset from any reachable state forces phase focus,
session count 0, a stopped clock (inactive, cadence cancelled) holding the
configured focus duration, and leaves every statistics field unchanged. -/
theorem reset_restores_focus_state (a : AppState) :
    ((handleResetTimer a).timerState = { phase := Phase.focus, sessionCount := 0 }) ∧
    ((handleResetTimer a).clock.time = ⟨a.settings.focusTime, 0⟩) ∧
    ((handleResetTimer a).clock.isActive = false) ∧
    ((handleResetTimer a).clock.intervalArmed = false) ∧
    ((handleResetTimer a).statistics = a.statistics) := by
  refine ⟨rfl, rfl, rfl, rfl, rfl⟩

namespace Worker

/-- Module-level state of timerWorker.ts: `currentTime`, `isRunning`, and
whether `timerInterval` holds a live interval handle. -/
structure State where
  currentTime : TimerTime
  isRunning : Bool
  intervalSet : Bool
deriving Repr, DecidableEq

/-- The worker's `startTimer` function: returns immediately if an
interval already exists, otherwise installs the one-second interval. -/
def startTimer (w : State) : State :=
  if w.intervalSet then w else { w with intervalSet := true }

/-- The worker's `START_TIMER` message branch: only when not already
running does it set `isRunning`, adopt `payload.time` and call
`startTimer`; a `START_TIMER` received while running is ignored
entirely. -/
def onStartMessage (payload : TimerTime) (w : State) : State :=
  if w.isRunning then w
  else startTimer { w with isRunning := true, currentTime := payload }

end Worker

/-- A worker that is already running at 25:00 with its interval armed. -/
def workerRunning : Worker.State :=
  { currentTime := ⟨25, 0⟩, isRunning := true, intervalSet := true }

/-- C9 counterexample: the worker's `START_TIMER` handler, received while
the worker is already running, leaves the state untouched — remaining
time stays 25:00 instead of becoming the requested 5:00 — so start is not
an idempotent restart for every clock state. -/
theorem worker_start_not_idempotent_restart :
    Worker.onStartMessage ⟨5, 0⟩ workerRunning = workerRunning ∧
    (Worker.onStartMessage ⟨5, 0⟩ workerRunning).currentTime ≠ ⟨5, 0⟩ := by
  decide

/-- C9 (amended): the hook's `startTimer` is an idempotent restart — its
post-state is `{time := duration, isActive := true, intervalArmed :=
true}` regardless of the prior state, any previous cadence being
cancelled — whereas the worker's `START_TIMER` handler ignores the
message whenever the worker is already running. -/
theorem hook_start_idempotent_restart (t : TimerTime) (s sAlt : ClockState)
    (tm : TimerTime) (ivl : Bool) :
    (startTimer t s = { time := t, isActive := true, intervalArmed := true }) ∧
    (startTimer t s = startTimer t sAlt) ∧
    (Worker.onStartMessage t { currentTime := tm, isRunning := true, intervalSet := ivl }
      = { currentTime := tm, isRunning := true, intervalSet := ivl }) := by
  refine ⟨rfl, rfl, ?_⟩
  simp [Worker.onStartMessage]

/-- C10: the clock's remaining time is a function of delivered callback
count alone, not of elapsed wall-clock time. Started at 25:00, with only
3 tick callbacks delivered while 10 wall-clock seconds elapse (a
throttled host), the code reports 24:57 — duration minus the callback
count — while the claimed wall-clock-derived remaining time is 24:50;
the visibilitychange listener only logs and changes no state. -/
theorem remaining_time_counts_callbacks_not_wall_clock :
    ((runTicks (startTimer ⟨25, 0⟩ clockInit) 3).1.time = ⟨24, 57⟩) ∧
    (TimerTime.total ⟨24, 57⟩ = TimerTime.total ⟨25, 0⟩ - 3) ∧
    (TimerTime.total ⟨24, 57⟩ ≠ TimerTime.total ⟨25, 0⟩ - 10) ∧
    (handleVisibilityChange true (startTimer ⟨25, 0⟩ clockInit)
      = startTimer ⟨25, 0⟩ clockInit) := by
  decide
